import Mathlib

/-!
Verification development for the Lorenz 63 dynamic model of the DAFI
repository (`source/dyn_models/lorenz.py`).

Modelling conventions:
* machine floats are modelled by `ℚ` (exact arithmetic);
* a `nstate × nsamples` ensemble matrix is a list of rows, each row a list
  of rationals (row `i`, column `isamp` is member `isamp`'s component `i`);
* a draw from `numpy.random.normal(0, std, ·)` is modelled as `std * g`
  where `g` is an externally supplied standard-normal draw; numpy raises
  `ValueError` when the scale argument is negative, modelled by `Option`;
* the observation record `obs.dat` read by `np.loadtxt` is passed in as a
  list of rows.
-/

namespace Lorenz

/-- Entry `(i, j)` of a list-of-rows matrix, default `0` out of range. -/
def entryD (M : List (List ℚ)) (i j : ℕ) : ℚ := (M.getD i []).getD j 0

/-- Column `j` of a list-of-rows matrix. -/
def colOf (M : List (List ℚ)) (j : ℕ) : List ℚ := M.map (fun r => r.getD j 0)

/-- Dot product of two equal-length vectors (`numpy.dot` on vectors). -/
def dotL (u v : List ℚ) : ℚ := (List.zipWith (fun a b => a * b) u v).sum

/-- `A.dot(B)` for list-of-rows matrices: entry `(i, j)` is the dot product
of row `i` of `A` with column `j` of `B`. -/
def matMul (A B : List (List ℚ)) : List (List ℚ) :=
  A.map (fun r => (List.range (B.headD []).length).map (fun j => dotL r (colOf B j)))

/-- Configuration of `Solver.__init__` (source lines 28-116): the run-level
arguments together with the values parsed from the model input file.  The
constructor arguments `forward_interval` and `max_pseudo_time` are never
stored nor read and are omitted. -/
structure Solver where
  nsamples : ℕ
  da_interval : ℚ
  t_end : ℚ
  dt_interval : ℚ
  x : ℚ
  y : ℚ
  z : ℚ
  rho : ℚ
  beta : ℚ
  sigma : ℚ
  obs_rel_std : ℚ
  x_rel_std : ℚ
  perturb_rho : Bool
  perturb_beta : Bool
  perturb_sigma : Bool

/-- Augmented initial condition (source lines 100-112): `[x, y, z]` with the
flagged parameters appended in the fixed order rho, beta, sigma. -/
def Solver.x_init (s : Solver) : List ℚ :=
  [s.x, s.y, s.z]
    ++ (if s.perturb_rho then [s.rho] else [])
    ++ (if s.perturb_beta then [s.beta] else [])
    ++ (if s.perturb_sigma then [s.sigma] else [])

/-- Count of flagged parameters (source lines 103-112). -/
def Solver.num_params (s : Solver) : ℕ :=
  (if s.perturb_rho then 1 else 0)
    + (if s.perturb_beta then 1 else 0)
    + (if s.perturb_sigma then 1 else 0)

/-- Dimension of the augmented state space: `len(x_init)` (source line 114). -/
def Solver.nstate (s : Solver) : ℕ := s.x_init.length

/-- Dimension of the observation space (source line 116). -/
def Solver.nstate_obs (s : Solver) : ℕ := 3

/-- Observation operator (source lines 357-363): rows `[[1,0,0],[0,1,0],[0,0,1]]`
followed by one `[0,0,0]` row per flagged parameter, then transposed. -/
def Solver.h_matrix (s : Solver) : List (List ℚ) :=
  List.transpose ([[1, 0, 0], [0, 1, 0], [0, 0, 1]] ++
    (List.range s.num_params).map (fun _ => [(0 : ℚ), 0, 0]))

/-- Parameter values used by the ODE right-hand side, mirroring the mutation
chain of `Solver.lorenz63` (source lines 169-202): rho, beta, sigma start at
the reference constants and are overwritten by the `nstate == 4/5/6` branches,
whose inner `if`s run in sequence and may each overwrite earlier values. -/
def Solver.lorenz63Params (s : Solver) (state_vec : List ℚ) : ℚ × ℚ × ℚ :=
  if s.nstate = 4 then
    (if s.perturb_rho then state_vec.getD 3 0 else s.rho,
     if s.perturb_beta then state_vec.getD 3 0 else s.beta,
     if s.perturb_sigma then state_vec.getD 3 0 else s.sigma)
  else if s.nstate = 5 then
    let p1 : ℚ × ℚ × ℚ :=
      if !s.perturb_rho then (s.rho, state_vec.getD 3 0, state_vec.getD 4 0)
      else (s.rho, s.beta, s.sigma)
    let p2 : ℚ × ℚ × ℚ :=
      if s.perturb_beta then (state_vec.getD 3 0, p1.2.1, state_vec.getD 4 0)
      else p1
    let p3 : ℚ × ℚ × ℚ :=
      if s.perturb_sigma then (state_vec.getD 3 0, state_vec.getD 4 0, p2.2.2)
      else p2
    p3
  else if s.nstate = 6 then
    (state_vec.getD 3 0, state_vec.getD 4 0, state_vec.getD 5 0)
  else (s.rho, s.beta, s.sigma)

/-- Lorenz 63 right-hand side (source lines 153-208).  `delta_x` is a
length-`nstate` vector: components 0-2 carry the ODE, and every component
from index 3 on is zero (`np.zeros` initialisation, explicitly re-set to 0 by
the `nstate == 4/5/6` branches).  The `time` argument is unused, as in the
source. -/
def Solver.lorenz63 (s : Solver) (time : ℚ) (state_vec : List ℚ) : List ℚ :=
  let p := s.lorenz63Params state_vec
  (List.range s.nstate).map (fun i =>
    if i = 0 then p.2.2 * (-(state_vec.getD 0 0) + state_vec.getD 1 0)
    else if i = 1 then
      p.1 * state_vec.getD 0 0 - state_vec.getD 1 0 -
        state_vec.getD 0 0 * state_vec.getD 2 0
    else if i = 2 then
      state_vec.getD 0 0 * state_vec.getD 1 0 - p.2.1 * state_vec.getD 2 0
    else 0)

/-- A configuration with `perturb_rho` and `perturb_beta` flagged (and the
spec scenario's numeric values): construction appends rho at slot 3 and beta
at slot 4, so `nstate = 5`. -/
def bugSolver : Solver :=
  { nsamples := 5, da_interval := 1, t_end := 1, dt_interval := 1/100,
    x := 1, y := 2, z := 3, rho := 28, beta := 8/3, sigma := 10,
    obs_rel_std := 1/10, x_rel_std := 1/10,
    perturb_rho := true, perturb_beta := true, perturb_sigma := false }

/-- C1: refuted on the code.  With `perturb_rho` and `perturb_beta` flagged,
construction appends rho at slot 3 and beta at slot 4; the claim says the
derivative reads rho from slot 3, beta from slot 4, and keeps sigma at its
reference value 10.  On the state `[0, 1, 1, 50, 60]` that would give the
derivative `[10*(0-0+1), 50*0-1-0*1, 0*1-60*1, 0, 0] = [10, -1, -60, 0, 0]`;
the code instead keeps beta at its reference `8/3` and reads sigma from
slot 4 (the slot holding the appended beta value), yielding
`[60, -1, -8/3, 0, 0]`. -/
theorem C1_lorenz63_slot_readout :
    bugSolver.nstate = 5 ∧
    bugSolver.perturb_rho = true ∧ bugSolver.perturb_beta = true ∧
    bugSolver.perturb_sigma = false ∧
    bugSolver.x_init = [1, 2, 3, 28, 8/3] ∧
    bugSolver.lorenz63 0 [0, 1, 1, 50, 60] = [60, -1, -8/3, 0, 0] ∧
    bugSolver.lorenz63 0 [0, 1, 1, 50, 60] ≠ [10, -1, -60, 0, 0] := by
  refine ⟨rfl, rfl, rfl, rfl, rfl, ?_, ?_⟩ <;>
    norm_num [Solver.lorenz63, Solver.lorenz63Params, Solver.nstate, Solver.x_init,
      bugSolver, List.range_succ]

/-- Model of a row of draws `np.random.normal(0, std, nsamples)`: numpy
raises `ValueError: scale < 0` when the scale argument is negative (modelled
by `none`); otherwise draw `j` is `std * g j` for standard-normal draws `g`. -/
def npNormalRow (std : ℚ) (draws : List ℚ) : Option (List ℚ) :=
  if std < 0 then none else some (draws.map (fun d => std * d))

/-- The row loop of `Solver.generate_ensemble` (source lines 143-146): row
`idim` is `x_init[idim] + np.random.normal(0, x_rel_std * x_init[idim],
nsamples)`; a negative scale aborts the call with numpy's `ValueError`. -/
def Solver.genRows (s : Solver) (g : ℕ → ℕ → ℚ) : List ℕ → Option (List (List ℚ))
  | [] => some []
  | idim :: rest =>
    match npNormalRow (s.x_rel_std * s.x_init.getD idim 0)
        ((List.range s.nsamples).map (fun j => g idim j)) with
    | none => none
    | some noise =>
      match s.genRows g rest with
      | none => none
      | some rows => some ((noise.map (fun v => s.x_init.getD idim 0 + v)) :: rows)

/-- `Solver.generate_ensemble` (source lines 122-151): builds the initial
`nstate × nsamples` state ensemble row by row and applies the observation
operator to produce the modeled observations. -/
def Solver.generate_ensemble (s : Solver) (g : ℕ → ℕ → ℚ) :
    Option (List (List ℚ) × List (List ℚ)) :=
  match s.genRows g (List.range s.nstate) with
  | none => none
  | some state_vec => some (state_vec, matMul s.h_matrix state_vec)

/-- The spec's end-to-end scenario configuration: `x = -2.39, y = -3.46,
z = 14.98, rho = 28, beta = 8/3, sigma = 10, perturb_rho = True,
perturb_beta = False, perturb_sigma = False, x_rel_std = 0.1,
obs_rel_std = 0.1, dt_interval = 0.01`, with `nsamples = 5` and
`da_interval = 1.0`. -/
def specSolver : Solver :=
  { nsamples := 5, da_interval := 1, t_end := 1, dt_interval := 1/100,
    x := -239/100, y := -346/100, z := 1498/100, rho := 28, beta := 8/3, sigma := 10,
    obs_rel_std := 1/10, x_rel_std := 1/10,
    perturb_rho := true, perturb_beta := false, perturb_sigma := false }

/-- C2, counterexample: in the spec's own end-to-end scenario the first row
already has scale `x_rel_std * x_init[0] = 0.1 * (-2.39) < 0`, so
`np.random.normal` raises `ValueError` and `generate_ensemble` fails instead
of returning an ensemble (evaluated here with every standard-normal draw 0). -/
theorem C2_generate_ensemble_counterexample :
    specSolver.generate_ensemble (fun _ _ => 0) = none := by
  norm_num [Solver.generate_ensemble, Solver.genRows, npNormalRow, Solver.nstate,
    Solver.x_init, specSolver, List.range_succ]

lemma genRows_eq_some (s : Solver) (g : ℕ → ℕ → ℚ) (l : List ℕ)
    (h : ∀ i ∈ l, 0 ≤ s.x_rel_std * s.x_init.getD i 0) :
    s.genRows g l = some (l.map (fun i =>
      (List.range s.nsamples).map (fun j =>
        s.x_init.getD i 0 + s.x_rel_std * s.x_init.getD i 0 * g i j))) := by
  induction l with
  | nil => rfl
  | cons a rest ih =>
    have ha : ¬ (s.x_rel_std * s.x_init.getD a 0 < 0) :=
      not_lt.mpr (h a (List.mem_cons_self a rest))
    rw [Solver.genRows, npNormalRow, if_neg ha,
      ih (fun i hi => h i (List.mem_cons_of_mem _ hi))]
    simp [List.map_map, Function.comp]

/-- C2, amended: `generate_ensemble` returns without failure provided every
row scale `x_rel_std * x_init[i]` is non-negative — so `x_init[i] == 0` is
accepted with zero-variance noise, but a negative entry (e.g. the scenario's
`x = -2.39` with positive `x_rel_std`) makes numpy's normal sampler raise.
On success the state ensemble is the `nstate × nsamples` matrix with row
`i`, member `j` equal to `x_init[i] + (x_rel_std * x_init[i]) * g i j`, and
the modeled observations are `h_matrix.dot(state_vec)`. -/
theorem C2_generate_ensemble_amended (s : Solver) (g : ℕ → ℕ → ℚ)
    (h : ∀ i, i < s.nstate → 0 ≤ s.x_rel_std * s.x_init.getD i 0) :
    ∃ sv, s.generate_ensemble g = some (sv, matMul s.h_matrix sv) ∧
      sv = (List.range s.nstate).map (fun i =>
        (List.range s.nsamples).map (fun j =>
          s.x_init.getD i 0 + s.x_rel_std * s.x_init.getD i 0 * g i j)) ∧
      sv.length = s.nstate ∧ ∀ row ∈ sv, row.length = s.nsamples := by
  have hg := genRows_eq_some s g (List.range s.nstate)
    (fun i hi => h i (List.mem_range.mp hi))
  refine ⟨_, ?_, rfl, ?_, ?_⟩
  · rw [Solver.generate_ensemble, hg]
  · simp
  · intro row hrow
    simp only [List.mem_map] at hrow
    obtain ⟨i, _, rfl⟩ := hrow
    simp

/-- A small configuration with non-negative initial state, used as a witness
input below. -/
def posSolver : Solver :=
  { nsamples := 1, da_interval := 1, t_end := 1, dt_interval := 1/2,
    x := 1, y := 2, z := 3, rho := 28, beta := 8/3, sigma := 10,
    obs_rel_std := 1/10, x_rel_std := 1/10,
    perturb_rho := false, perturb_beta := false, perturb_sigma := false }

/-- Witness for the amended C2 theorem at a concrete configuration whose
initial state is non-negative. -/
theorem C2_generate_ensemble_amended_witness :
    ∃ sv, posSolver.generate_ensemble (fun _ _ => 1) =
        some (sv, matMul posSolver.h_matrix sv) ∧
      sv = (List.range posSolver.nstate).map (fun i =>
        (List.range posSolver.nsamples).map (fun j =>
          posSolver.x_init.getD i 0 +
            posSolver.x_rel_std * posSolver.x_init.getD i 0 *
              (fun (_ _ : ℕ) => (1 : ℚ)) i j)) ∧
      sv.length = posSolver.nstate ∧
      ∀ row ∈ sv, row.length = posSolver.nsamples :=
  C2_generate_ensemble_amended posSolver (fun _ _ => 1) (by
    intro i hi
    have h3 : i < 3 := by
      simpa [posSolver, Solver.nstate, Solver.x_init] using hi
    interval_cases i <;> norm_num [posSolver, Solver.x_init])

lemma getD_replicate_zero : ∀ (n i : ℕ), (List.replicate n (0 : ℚ)).getD i 0 = 0
  | 0, _ => rfl
  | _ + 1, 0 => rfl
  | n + 1, i + 1 => getD_replicate_zero n i

lemma dotL_replicate_zero : ∀ (n : ℕ) (l : List ℚ), dotL (List.replicate n 0) l = 0 := by
  intro n
  induction n with
  | zero => intro l; simp [dotL]
  | succ n ih =>
    intro l
    cases l with
    | nil => simp [dotL]
    | cons a l =>
      have h := ih l
      simp only [dotL, List.replicate_succ, List.zipWith_cons_cons, List.sum_cons] at h ⊢
      rw [h]
      ring

lemma dotL_unit0 (np : ℕ) (a b c : ℚ) (l : List ℚ) :
    dotL ((1 : ℚ) :: 0 :: 0 :: List.replicate np 0) (a :: b :: c :: l) = a := by
  have h := dotL_replicate_zero np l
  simp only [dotL, List.zipWith_cons_cons, List.sum_cons] at h ⊢
  rw [h]
  ring

lemma dotL_unit1 (np : ℕ) (a b c : ℚ) (l : List ℚ) :
    dotL ((0 : ℚ) :: 1 :: 0 :: List.replicate np 0) (a :: b :: c :: l) = b := by
  have h := dotL_replicate_zero np l
  simp only [dotL, List.zipWith_cons_cons, List.sum_cons] at h ⊢
  rw [h]
  ring

lemma dotL_unit2 (np : ℕ) (a b c : ℚ) (l : List ℚ) :
    dotL ((0 : ℚ) :: 0 :: 1 :: List.replicate np 0) (a :: b :: c :: l) = c := by
  have h := dotL_replicate_zero np l
  simp only [dotL, List.zipWith_cons_cons, List.sum_cons] at h ⊢
  rw [h]
  ring

lemma range_map_getD_self (l : List ℚ) :
    (List.range l.length).map (fun j => l.getD j 0) = l := by
  apply List.ext_getElem
  · simp
  · intro i h1 h2
    simp [List.getD_eq_getElem?_getD, List.getElem?_eq_getElem, h2]

lemma num_params_le_three (s : Solver) : s.num_params ≤ 3 := by
  unfold Solver.num_params
  split_ifs <;> omega

lemma nstate_eq (s : Solver) : s.nstate = 3 + s.num_params := by
  cases hr : s.perturb_rho <;> cases hb : s.perturb_beta <;> cases hs : s.perturb_sigma <;>
    simp [Solver.nstate, Solver.x_init, Solver.num_params, hr, hb, hs]

lemma transpose_h : ∀ np ≤ 3,
    List.transpose ([[(1 : ℚ), 0, 0], [0, 1, 0], [0, 0, 1]] ++
        (List.range np).map (fun _ => [(0 : ℚ), 0, 0])) =
      [(1 : ℚ) :: 0 :: 0 :: List.replicate np 0,
       (0 : ℚ) :: 1 :: 0 :: List.replicate np 0,
       (0 : ℚ) :: 0 :: 1 :: List.replicate np 0] := by
  intro np h
  interval_cases np <;> rfl

lemma h_matrix_rows (s : Solver) :
    s.h_matrix = [(1 : ℚ) :: 0 :: 0 :: List.replicate s.num_params 0,
      (0 : ℚ) :: 1 :: 0 :: List.replicate s.num_params 0,
      (0 : ℚ) :: 0 :: 1 :: List.replicate s.num_params 0] := by
  rw [Solver.h_matrix]
  exact transpose_h s.num_params (num_params_le_three s)

/-- C5: for every flag configuration, `nstate = 3 + #flags`; the observation
operator has shape `3 × nstate`, its left `3 × 3` block is the identity and
its trailing `nstate - 3` columns are all zero; applying it to any
`nstate × nsamples` matrix yields exactly the first three rows. -/
theorem C5_h_matrix_selects_first_rows (s : Solver) :
    s.nstate = 3 + ((if s.perturb_rho then 1 else 0) +
      (if s.perturb_beta then 1 else 0) + (if s.perturb_sigma then 1 else 0)) ∧
    s.h_matrix.length = 3 ∧
    (∀ row ∈ s.h_matrix, row.length = s.nstate) ∧
    (∀ r, r < 3 → ∀ k, k < s.nstate →
      entryD s.h_matrix r k = if k = r then 1 else 0) ∧
    (∀ X : List (List ℚ), X.length = s.nstate →
      (∀ row ∈ X, row.length = s.nsamples) → matMul s.h_matrix X = X.take 3) := by
  have hnp := num_params_le_three s
  have hns := nstate_eq s
  refine ⟨hns, ?_, ?_, ?_, ?_⟩
  · rw [h_matrix_rows]; rfl
  · rw [h_matrix_rows]
    intro row hrow
    simp only [List.mem_cons, List.not_mem_nil, or_false] at hrow
    rcases hrow with rfl | rfl | rfl <;> simp [hns] <;> omega
  · intro r hr k hk
    rw [hns] at hk
    rw [h_matrix_rows]
    interval_cases r <;>
      · unfold entryD
        rcases k with _ | _ | _ | k <;>
          simp [getD_replicate_zero]
  · intro X hlen hwid
    rw [hns] at hlen
    rcases X with _ | ⟨r0, _ | ⟨r1, _ | ⟨r2, rest⟩⟩⟩
    · exfalso; simp at hlen; omega
    · exfalso; simp at hlen; omega
    · exfalso; simp at hlen; omega
    · have w0 : r0.length = s.nsamples := hwid r0 (by simp)
      have w1 : r1.length = s.nsamples := hwid r1 (by simp)
      have w2 : r2.length = s.nsamples := hwid r2 (by simp)
      have e01 : r0.length = r1.length := by rw [w0, w1]
      have e12 : r1.length = r2.length := by rw [w1, w2]
      rw [h_matrix_rows]
      simp only [matMul, List.map_cons, List.map_nil, List.headD_cons, colOf,
        dotL_unit0, dotL_unit1, dotL_unit2, List.take_cons, List.take_zero]
      rw [range_map_getD_self r0, e01, range_map_getD_self r1, e12,
        range_map_getD_self r2]
      simp

/-- Witness for C5 at a concrete configuration and ensemble. -/
theorem C5_h_matrix_selects_first_rows_witness :
    matMul posSolver.h_matrix [[5], [6], [7]] = [[(5 : ℚ)], [6], [7]].take 3 :=
  (C5_h_matrix_selects_first_rows posSolver).2.2.2.2 [[5], [6], [7]] rfl
    (by intro row hrow
        simp only [List.mem_cons, List.not_mem_nil, or_false] at hrow
        rcases hrow with rfl | rfl | rfl <;> rfl)

/-- `Solver.forward` (source lines 259-280): no integration is performed; the
input ensemble is returned unchanged together with `h_matrix.dot(X)`. -/
def Solver.forward (s : Solver) (X : List (List ℚ)) (next_pseudo_time : ℚ) :
    List (List ℚ) × List (List ℚ) :=
  (X, matMul s.h_matrix X)

/-- C10: `forward(X, t)` returns the input ensemble itself, entirely
unchanged, as its first component and `h_matrix.dot(X)` as its second, and
the result does not depend on the time argument. -/
theorem C10_forward_identity (s : Solver) (X : List (List ℚ)) (t t2 : ℚ) :
    s.forward X t = (X, matMul s.h_matrix X) ∧ s.forward X t = s.forward X t2 :=
  ⟨rfl, rfl⟩

/-- Model of `np.arange(a, b, step)` for positive `step` in exact arithmetic:
the element count is `⌈(b - a) / step⌉` (clamped at 0) and element `i` is
`a + i * step`. -/
def npArange (a b step : ℚ) : List ℚ :=
  (List.range (⌈(b - a) / step⌉.toNat)).map (fun i : ℕ => a + (i : ℚ) * step)

/-- Save-point grid of `Solver.forecast_to_time` (source lines 230-237):
`np.arange(new_start_time + dt_interval, next_end_time + dt_interval,
dt_interval)` with `new_start_time = next_end_time - da_interval`. -/
def Solver.time_series (s : Solver) (next_end_time : ℚ) : List ℚ :=
  npArange (next_end_time - s.da_interval + s.dt_interval)
    (next_end_time + s.dt_interval) s.dt_interval

/-- C6: when `da_interval = k * dt_interval` with `dt_interval > 0`, the
internal save-point grid is `startTime + dt, startTime + 2*dt, ...,
startTime + k*dt` (with `startTime = next_end_time - da_interval`), and for
`k ≥ 1` its last grid point is exactly `next_end_time`. -/
theorem C6_time_series_grid (s : Solver) (t : ℚ) (k : ℕ)
    (hdt : 0 < s.dt_interval) (hda : s.da_interval = k * s.dt_interval) :
    s.time_series t = (List.range k).map
      (fun i : ℕ => (t - s.da_interval) + ((i : ℚ) + 1) * s.dt_interval) ∧
    (1 ≤ k → (s.time_series t).getLast? = some t) := by
  have hne : s.dt_interval ≠ 0 := ne_of_gt hdt
  have hcount : (t + s.dt_interval - (t - s.da_interval + s.dt_interval)) /
      s.dt_interval = (k : ℚ) := by
    rw [hda]
    field_simp
  have hts : s.time_series t = (List.range k).map
      (fun i : ℕ => (t - s.da_interval) + ((i : ℚ) + 1) * s.dt_interval) := by
    unfold Solver.time_series npArange
    rw [hcount, Int.ceil_natCast, Int.toNat_natCast]
    exact List.map_congr_left (fun i _ => by ring)
  refine ⟨hts, fun hk => ?_⟩
  obtain ⟨m, rfl⟩ : ∃ m, k = m + 1 := ⟨k - 1, by omega⟩
  rw [hts, List.range_succ, List.map_append, List.map_cons, List.map_nil,
    List.getLast?_concat]
  congr 1
  rw [hda]
  push_cast
  ring

/-- Witness for C6 with `da_interval = 1 = 2 * (1/2) = k * dt_interval`. -/
theorem C6_time_series_grid_witness :
    posSolver.time_series 1 = (List.range 2).map
      (fun i : ℕ => ((1 : ℚ) - posSolver.da_interval) +
        ((i : ℚ) + 1) * posSolver.dt_interval) ∧
    (1 ≤ 2 → (posSolver.time_series 1).getLast? = some 1) :=
  C6_time_series_grid posSolver 1 2 (by norm_num [posSolver])
    (by norm_num [posSolver])

lemma getD_map_range {α : Type} (f : ℕ → α) {i n : ℕ} (h : i < n) (d : α) :
    ((List.range n).map f).getD i d = f i := by
  rw [List.getD_eq_getElem?_getD]
  simp [List.getElem?_range h]

lemma getD_map {α β : Type} (g : α → β) (l : List α) {j : ℕ} (h : j < l.length)
    (d : β) (d2 : α) : (l.map g).getD j d = g (l.getD j d2) := by
  rw [List.getD_eq_getElem?_getD, List.getElem?_map, List.getD_eq_getElem?_getD]
  simp [List.getElem?_eq_getElem, h]

lemma sum_zipWith_zero {α β : Type} (f : α → β → ℚ) :
    ∀ (l1 : List α) (l2 : List β), (∀ a b, f a b = 0) →
      (List.zipWith f l1 l2).sum = 0 := by
  intro l1
  induction l1 with
  | nil => intro l2 _; simp
  | cons a l ih =>
    intro l2 h
    cases l2 with
    | nil => simp
    | cons b l2 => simp [h, ih l2 h]

/-- Every component of the `lorenz63` derivative from index 3 on is zero. -/
lemma lorenz63_getD_eq_zero (s : Solver) (t : ℚ) (v : List ℚ) (r : ℕ)
    (hr : 3 ≤ r) : (s.lorenz63 t v).getD r 0 = 0 := by
  unfold Solver.lorenz63
  rcases lt_or_ge r s.nstate with h | h
  · rw [getD_map_range _ h]
    rw [if_neg (by omega), if_neg (by omega), if_neg (by omega)]
  · exact List.getD_eq_default _ _ (by simpa using h)

/-- One explicit Runge-Kutta-type update for the `lorenz63` field: the new
state is `y + h * Σ_j b_j * f(t_j, z_j)` componentwise, where the evaluation
points `(t_j, z_j)` are arbitrary.  Every accepted step of an explicit
Runge-Kutta scheme (such as scipy's `dopri5`), and every dense-output
evaluation it performs to hit a requested time, has this form.  Modelled from
the spec, since the integrator (`scipy.integrate.ode` with method `dopri5`)
is external library code: an adaptive explicit Runge-Kutta integrator of
Dormand-Prince type. -/
def rkUpdate (s : Solver) (y : List ℚ) (h : ℚ) (evals : List (ℚ × List ℚ))
    (b : List ℚ) : List ℚ :=
  (List.range y.length).map (fun i =>
    y.getD i 0 + h * (List.zipWith
      (fun e w => w * ((s.lorenz63 e.1 e.2).getD i 0)) evals b).sum)

/-- One integrator step: some Runge-Kutta-type update of the state. -/
def RKStep (s : Solver) (y yn : List ℚ) : Prop :=
  ∃ h evals b, yn = rkUpdate s y h evals b

/-- `integ` models the `solver.integrate` calls of the source: from any state
it produces a state reachable by finitely many Runge-Kutta-type updates of
the `lorenz63` field, with no other noise source. -/
def Solver.integrateModel (s : Solver) (integ : ℚ → List ℚ → List ℚ) : Prop :=
  ∀ t y, Relation.ReflTransGen (RKStep s) y (integ t y)

/-- Reassemble member columns into a `nrows × nsamples` list-of-rows matrix
(the column-by-column fill `state_vec_forecast[:, isamp] = ...`). -/
def colsToRows (nrows : ℕ) (cols : List (List ℚ)) : List (List ℚ) :=
  (List.range nrows).map (fun i => cols.map (fun c => c.getD i 0))

/-- `Solver.forecast_to_time` (source lines 210-257): for each ensemble
member independently, drive the integrator through the save-point grid
(recording the state at each grid point and keeping the one at the final
grid point) and store the result as column `isamp` of the forecast matrix. -/
def Solver.forecast_to_time (s : Solver) (integ : ℚ → List ℚ → List ℚ)
    (state_vec_current : List (List ℚ)) (next_end_time : ℚ) : List (List ℚ) :=
  colsToRows s.nstate
    ((List.range s.nsamples).map (fun isamp =>
      (s.time_series next_end_time).foldl (fun y t => integ t y)
        (colOf state_vec_current isamp)))

lemma rkUpdate_getD_invariant (s : Solver) (y : List ℚ) (h : ℚ)
    (evals : List (ℚ × List ℚ)) (b : List ℚ) (r : ℕ) (hr : 3 ≤ r) :
    (rkUpdate s y h evals b).getD r 0 = y.getD r 0 := by
  unfold rkUpdate
  rcases lt_or_ge r y.length with hlt | hge
  · rw [getD_map_range _ hlt]
    rw [sum_zipWith_zero _ evals b
      (fun e w => by rw [lorenz63_getD_eq_zero s e.1 e.2 r hr]; ring)]
    ring
  · rw [List.getD_eq_default _ _ (by simpa using hge),
      List.getD_eq_default _ _ hge]

lemma rkReach_getD_invariant (s : Solver) {y yn : List ℚ}
    (hR : Relation.ReflTransGen (RKStep s) y yn) (r : ℕ) (hr : 3 ≤ r) :
    yn.getD r 0 = y.getD r 0 := by
  induction hR with
  | refl => rfl
  | tail _ hstep ih =>
    obtain ⟨h, evals, b, rfl⟩ := hstep
    rw [rkUpdate_getD_invariant _ _ _ _ _ r hr, ih]

lemma foldl_integ_getD_invariant (s : Solver) (integ : ℚ → List ℚ → List ℚ)
    (hI : s.integrateModel integ) (ts : List ℚ) (y : List ℚ) (r : ℕ)
    (hr : 3 ≤ r) :
    (ts.foldl (fun y t => integ t y) y).getD r 0 = y.getD r 0 := by
  induction ts generalizing y with
  | nil => rfl
  | cons t ts ih =>
    rw [List.foldl_cons, ih (integ t y), rkReach_getD_invariant s (hI t y) r hr]

/-- C3: for every ensemble and every augmented row (`3 ≤ r < nstate`), the
forecast returned by `forecast_to_time` leaves that row of every member
exactly equal to its value in the input ensemble: the `lorenz63` derivative
of the augmented slots is exactly 0, no noise is injected during the ODE
step, and every Runge-Kutta-type update therefore preserves those slots
exactly. -/
theorem C3_forecast_preserves_augmented_rows (s : Solver)
    (integ : ℚ → List ℚ → List ℚ) (hI : s.integrateModel integ)
    (X : List (List ℚ)) (hX : X.length = s.nstate) (t : ℚ) (r : ℕ)
    (hr3 : 3 ≤ r) (hrn : r < s.nstate) (j : ℕ) (hj : j < s.nsamples) :
    entryD (s.forecast_to_time integ X t) r j = entryD X r j := by
  unfold Solver.forecast_to_time colsToRows entryD
  rw [getD_map_range _ hrn]
  rw [getD_map _ _ (by simpa using hj) 0 []]
  rw [getD_map_range _ hj]
  rw [foldl_integ_getD_invariant s integ hI _ _ r hr3]
  unfold colOf
  rw [getD_map _ _ (by omega) 0 []]

/-- Explicit Euler integrator with step `1/2`, an instance of the
Runge-Kutta-type update model. -/
def eulerInteg (s : Solver) : ℚ → List ℚ → List ℚ :=
  fun t y => rkUpdate s y (1/2) [(t, y)] [1]

lemma eulerInteg_model (s : Solver) : s.integrateModel (eulerInteg s) :=
  fun t y => Relation.ReflTransGen.single ⟨1/2, [(t, y)], [1], rfl⟩

/-- Witness for C3: the spec-scenario configuration (4 augmented states),
one member, augmented row 3. -/
theorem C3_forecast_preserves_augmented_rows_witness :
    entryD (specSolver.forecast_to_time (eulerInteg specSolver)
      [[1], [2], [3], [4]] 1) 3 0 = entryD [[1], [2], [3], [4]] 3 0 :=
  C3_forecast_preserves_augmented_rows specSolver (eulerInteg specSolver)
    (eulerInteg_model specSolver) [[1], [2], [3], [4]] rfl 1 3 (by omega)
    (by decide) 0 (by decide)

/-- Control-flow model of the per-member integration loop of
`Solver.forecast_to_time` (source lines 243-255): `failAt t = true` means
the dopri5 solver reports non-convergence during the `integrate` call of
grid step `t`.  Modelled from library semantics: `ode.successful()` reads
the integrator's success flag and each `integrate` call sets it.  The flag
is checked BEFORE each `integrate` call, so the check of iteration `t` sees
the outcome of step `t - 1`; `sys.exit(1)` aborts the whole call (result
`false`), and exhausting the grid completes the member (result `true`). -/
def memberLoop (failAt : ℕ → Bool) : ℕ → ℕ → Bool → Bool
  | _, 0, _ => true
  | t, n + 1, succ =>
    if succ then memberLoop failAt (t + 1) n (!failAt t) else false

/-- Whether `forecast_to_time` runs to completion and returns a forecast
matrix (`true`) rather than aborting through `sys.exit(1)` (`false`).
Modelled from library semantics: `ode.set_initial_value` calls the dopri5
integrator's `reset`, which sets the success flag back to 1, so every
member's loop starts with a fresh flag. -/
def forecastCompletes (nsamples nsteps : ℕ) (fail : ℕ → ℕ → Bool) : Bool :=
  (List.range nsamples).all (fun isamp => memberLoop (fail isamp) 0 nsteps true)

/-- C4, counterexample: with a single member and a single grid step whose
`integrate` call reports non-convergence, the loop nevertheless completes
and a forecast matrix is returned — the failure at the final grid step of a
member is never checked, so a matrix is returned although not every
integrate step succeeded. -/
theorem C4_forecast_failure_counterexample :
    forecastCompletes 1 1 (fun _ _ => true) = true ∧
    (fun _ _ : ℕ => true) 0 0 = true :=
  ⟨rfl, rfl⟩

lemma memberLoop_eq_true (f : ℕ → Bool) :
    ∀ (n t : ℕ) (b : Bool), memberLoop f t n b = true ↔
      (n = 0 ∨ (b = true ∧ ∀ i, i + 1 < n → f (t + i) = false)) := by
  intro n
  induction n with
  | zero => intro t b; simp [memberLoop]
  | succ n ih =>
    intro t b
    cases b with
    | false => simp [memberLoop]
    | true =>
      rw [show memberLoop f t (n + 1) true = memberLoop f (t + 1) n (!f t) from rfl]
      rw [ih (t + 1) (!f t)]
      constructor
      · rintro (hn | ⟨hf, hrest⟩)
        · subst hn
          exact Or.inr ⟨rfl, fun i hi => absurd hi (by omega)⟩
        · refine Or.inr ⟨rfl, fun i hi => ?_⟩
          cases i with
          | zero => simpa using hf
          | succ i =>
            have h2 := hrest i (by omega)
            rw [show t + (i + 1) = t + 1 + i from by omega]
            exact h2
      · rintro (h | ⟨-, hall⟩)
        · exact absurd h (by omega)
        · cases n with
          | zero => exact Or.inl rfl
          | succ m =>
            refine Or.inr ⟨by simpa using hall 0 (by omega), fun i hi => ?_⟩
            rw [show t + 1 + i = t + (i + 1) from by omega]
            exact hall (i + 1) (by omega)

/-- C4, amended: the success check runs before each `integrate` call and the
success flag is reset when the next member is initialised, so the forecast
call aborts fatally iff some member's integrate call at a NON-final grid
step reports non-convergence; equivalently, a forecast matrix is returned
iff no member fails at a grid step other than its last one.  In particular,
non-convergence at the final grid step of a member goes undetected and a
matrix containing that member's degraded state is still returned. -/
theorem C4_forecast_failure_amended (nsamples nsteps : ℕ) (fail : ℕ → ℕ → Bool) :
    forecastCompletes nsamples nsteps fail = true ↔
      ∀ m, m < nsamples → ∀ t, t + 1 < nsteps → fail m t = false := by
  unfold forecastCompletes
  rw [List.all_eq_true]
  constructor
  · intro h m hm t ht
    have hmem := (memberLoop_eq_true (fail m) nsteps 0 true).mp
      (h _ (List.mem_range.mpr hm))
    rcases hmem with h0 | ⟨-, hall⟩
    · omega
    · simpa using hall t ht
  · intro h x hx
    rw [memberLoop_eq_true]
    rcases Nat.eq_zero_or_pos nsteps with h0 | h0
    · exact Or.inl h0
    · exact Or.inr ⟨rfl, fun i hi => by
        simpa using h x (List.mem_range.mp hx) i hi⟩

/-- Witness for the amended C4: two members, three grid steps, failure only
at the final grid step `t = 2` of each member — undetected, the call
completes. -/
theorem C4_forecast_failure_amended_witness :
    forecastCompletes 2 3 (fun _ t => decide (t = 2)) = true :=
  (C4_forecast_failure_amended 2 3 (fun _ t => decide (t = 2))).mpr
    (by intro m hm t ht; simp; omega)

/-- Python `int()` applied to a float: truncation toward zero. -/
def pyInt (q : ℚ) : ℤ := if q < 0 then -⌊-q⌋ else ⌊q⌋

/-- Row indexing `data[i]` of the `np.loadtxt` result: negative indices wrap
from the end; otherwise an index beyond the last row raises `IndexError`
(modelled by `none`). -/
def npRow (data : List (List ℚ)) (i : ℤ) : Option (List ℚ) :=
  if 0 ≤ i then
    if i.toNat < data.length then some (data.getD i.toNat []) else none
  else
    if (-i).toNat ≤ data.length then
      some (data.getD (data.length - (-i).toNat) [])
    else none

/-- Per-dimension observation noise standard deviation (source line 343):
`obs_rel_std * |value| + 0.1`. -/
def Solver.obsStd (s : Solver) (v : ℚ) : ℚ := s.obs_rel_std * |v| + 1/10

/-- Reference observation read by `Solver.observe` (source lines 336-340):
row `int(next_end_time / da_interval) * 10` of the record, columns `1:-1`
(all but the first and the last).  Python float division by
`da_interval = 0` raises `ZeroDivisionError` (`none`). -/
def Solver.refObs (s : Solver) (data : List (List ℚ)) (next_end_time : ℚ) :
    Option (List ℚ) :=
  if s.da_interval = 0 then none
  else
    (npRow data (pyInt (next_end_time / s.da_interval) * 10)).map
      (fun row => (row.drop 1).dropLast)

/-- `Solver.observe` (source lines 319-355): read the reference observation
`obs_vec = row[1:-1]` for the current assimilation step, draw ONE noisy
value per dimension (`g i` is the standard-normal draw of dimension `i`),
replicate the noisy observation vector across all `nsamples` columns, and
return the observation ensemble, the perturbation matrix
`obs_mat - np.tile(obs_vec, (nsamples, 1)).T`, and the per-dimension noise
standard deviations (which the source stores squared on the diagonal of
`self.obs_error` for `get_obs_error`).  Failure cases (`none`): division by
a zero `da_interval` (`ZeroDivisionError`), an out-of-range row index
(`IndexError`), a record row not carrying exactly 3 values between its
first and last column (shape errors in the dimension loop or in the
broadcast subtraction), and a negative noise scale (`ValueError`). -/
def Solver.observe (s : Solver) (data : List (List ℚ)) (g : ℕ → ℚ)
    (next_end_time : ℚ) :
    Option (List (List ℚ) × List (List ℚ) × List ℚ) :=
  if s.da_interval = 0 then none
  else
    match npRow data (pyInt (next_end_time / s.da_interval) * 10) with
    | none => none
    | some row =>
      if ((row.drop 1).dropLast).length = 3 then
        if ∀ i ∈ List.range 3, 0 ≤ s.obsStd (((row.drop 1).dropLast).getD i 0) then
          some (((List.range 3).map (fun i => ((row.drop 1).dropLast).getD i 0 +
              s.obsStd (((row.drop 1).dropLast).getD i 0) * g i)).map
                (fun v => List.replicate s.nsamples v),
            List.zipWith (fun mrow v => mrow.map (fun a => a - v))
              (((List.range 3).map (fun i => ((row.drop 1).dropLast).getD i 0 +
                s.obsStd (((row.drop 1).dropLast).getD i 0) * g i)).map
                  (fun v => List.replicate s.nsamples v))
              ((row.drop 1).dropLast),
            (List.range 3).map (fun i => s.obsStd (((row.drop 1).dropLast).getD i 0)))
        else none
      else none

/-- `Solver.get_obs_error` (source lines 303-305, with `self.obs_error` set
at source line 351): the dense matrix `diag(obs_std_vec ** 2)`. -/
def get_obs_error (obs_std_vec : List ℚ) : List (List ℚ) :=
  (List.range obs_std_vec.length).map (fun i =>
    (List.range obs_std_vec.length).map (fun j =>
      if i = j then obs_std_vec.getD i 0 ^ 2 else 0))

lemma observe_eq_some (s : Solver) (data : List (List ℚ)) (g : ℕ → ℚ) (t : ℚ)
    (mat pert : List (List ℚ)) (stds : List ℚ)
    (h : s.observe data g t = some (mat, pert, stds)) :
    ∃ ov : List ℚ, s.refObs data t = some ov ∧ ov.length = 3 ∧
      (∀ i ∈ List.range 3, 0 ≤ s.obsStd (ov.getD i 0)) ∧
      mat = ((List.range 3).map
        (fun i => ov.getD i 0 + s.obsStd (ov.getD i 0) * g i)).map
          (fun v => List.replicate s.nsamples v) ∧
      pert = List.zipWith (fun mrow v => mrow.map (fun a => a - v)) mat ov ∧
      stds = (List.range 3).map (fun i => s.obsStd (ov.getD i 0)) := by
  unfold Solver.observe at h
  split at h
  · exact absurd h (by simp)
  next hda =>
    split at h
    · exact absurd h (by simp)
    next row hrow =>
      split at h
      next hlen =>
        split at h
        next hstd =>
          simp only [Option.some.injEq, Prod.mk.injEq] at h
          obtain ⟨h1, h2, h3⟩ := h
          refine ⟨(row.drop 1).dropLast, ?_, hlen, hstd, h1.symm, ?_, h3.symm⟩
          · unfold Solver.refObs
            rw [if_neg hda, hrow]
            rfl
          · rw [← h1, ← h2]
        next hstd => exact absurd h (by simp)
      next hlen => exact absurd h (by simp)

lemma getD_replicate_lt {α : Type} (v d : α) {j n : ℕ} (h : j < n) :
    (List.replicate n v).getD j d = v := by
  rw [List.getD_eq_getElem?_getD]
  simp [List.getElem?_replicate, h]

lemma colOf_map_replicate (l : List ℚ) (n : ℕ) {j : ℕ} (hj : j < n) :
    colOf (l.map (fun v => List.replicate n v)) j = l := by
  unfold colOf
  rw [List.map_map]
  have hpt : ∀ v ∈ l, ((fun r => r.getD j 0) ∘ fun v => List.replicate n v) v =
      id v := fun v _ => getD_replicate_lt v 0 hj
  rw [List.map_congr_left hpt, List.map_id]

/-- C7: a successful `observe` draws exactly one noisy realization of the
reference observation per dimension (not per member) and replicates it
across all `nsamples` columns — every column of the returned observation
ensemble is the same vector `w`; the returned perturbation matrix equals the
noisy ensemble minus the reference observation tiled across the `nsamples`
columns, and every column of it equals the same raw noise vector `w - ov`. -/
theorem C7_observe_one_draw_replicated (s : Solver) (data : List (List ℚ))
    (g : ℕ → ℚ) (t : ℚ) (mat pert : List (List ℚ)) (stds : List ℚ)
    (h : s.observe data g t = some (mat, pert, stds)) :
    ∃ w ov : List ℚ, s.refObs data t = some ov ∧
      mat = w.map (fun v => List.replicate s.nsamples v) ∧
      pert = List.zipWith (fun mrow v => mrow.map (fun a => a - v)) mat ov ∧
      pert = (List.zipWith (fun a b => a - b) w ov).map
        (fun v => List.replicate s.nsamples v) ∧
      (∀ j, j < s.nsamples → colOf mat j = w) ∧
      (∀ j, j < s.nsamples →
        colOf pert j = List.zipWith (fun a b => a - b) w ov) := by
  obtain ⟨ov, hov, hlen3, hstd, hmat, hpert, hstds⟩ :=
    observe_eq_some s data g t mat pert stds h
  have hrep : pert = (List.zipWith (fun a b => a - b)
      ((List.range 3).map (fun i => ov.getD i 0 + s.obsStd (ov.getD i 0) * g i))
      ov).map (fun v => List.replicate s.nsamples v) := by
    rw [hpert, hmat]
    simp only [List.zipWith_map_left, List.map_zipWith, List.map_replicate]
  refine ⟨(List.range 3).map (fun i => ov.getD i 0 + s.obsStd (ov.getD i 0) * g i),
    ov, hov, hmat, hpert, hrep, ?_, ?_⟩
  · intro j hj
    rw [hmat]
    exact colOf_map_replicate _ _ hj
  · intro j hj
    rw [hrep]
    exact colOf_map_replicate _ _ hj

/-- C8: after a successful `observe`, `get_obs_error` is the dense `3 × 3`
diagonal matrix whose diagonal entry `i` equals
`(obs_rel_std * |referenceValue_i| + 0.1)^2` (the floor is the source's
literal `0.1`); with the configured `obs_rel_std` non-negative, every
diagonal entry is strictly positive, in particular also when a reference
value is exactly zero. -/
theorem C8_obs_error_diagonal_positive (s : Solver) (data : List (List ℚ))
    (g : ℕ → ℚ) (t : ℚ) (mat pert : List (List ℚ)) (stds : List ℚ)
    (h0 : 0 ≤ s.obs_rel_std) (h : s.observe data g t = some (mat, pert, stds)) :
    ∃ ov : List ℚ, s.refObs data t = some ov ∧
      (get_obs_error stds).length = 3 ∧
      (∀ row ∈ get_obs_error stds, row.length = 3) ∧
      (∀ i j, i < 3 → j < 3 → entryD (get_obs_error stds) i j =
        if i = j then (s.obs_rel_std * |ov.getD i 0| + 1/10) ^ 2 else 0) ∧
      (∀ i, i < 3 → 0 < entryD (get_obs_error stds) i i) := by
  obtain ⟨ov, hov, hlen3, hstd, hmat, hpert, hstds⟩ :=
    observe_eq_some s data g t mat pert stds h
  have hstdlen : stds.length = 3 := by rw [hstds]; simp
  have hentry : ∀ i, i < 3 → stds.getD i 0 = s.obsStd (ov.getD i 0) := by
    intro i hi
    rw [hstds]
    exact getD_map_range _ hi 0
  have hdiag : ∀ i j, i < 3 → j < 3 → entryD (get_obs_error stds) i j =
      if i = j then (s.obs_rel_std * |ov.getD i 0| + 1/10) ^ 2 else 0 := by
    intro i j hi hj
    unfold get_obs_error entryD
    rw [hstdlen, getD_map_range _ hi, getD_map_range _ hj, hentry i hi]
    unfold Solver.obsStd
    rfl
  refine ⟨ov, hov, ?_, ?_, hdiag, ?_⟩
  · unfold get_obs_error
    rw [hstdlen]
    simp
  · intro row hrow
    unfold get_obs_error at hrow
    rw [hstdlen] at hrow
    simp only [List.mem_map] at hrow
    obtain ⟨i, -, rfl⟩ := hrow
    simp
  · intro i hi
    rw [hdiag i i hi hi, if_pos rfl]
    have h2 := abs_nonneg (ov.getD i 0)
    have h3 := mul_nonneg h0 h2
    have h1 : 0 < s.obs_rel_std * |ov.getD i 0| + 1/10 := by linarith
    exact pow_pos h1 2

/-- C9: `observe` derives the assimilation step index as the integer part of
`next_end_time / da_interval` and reads the external record at row index
`step * 10`, taking the columns between the first (time) column and the
excluded last column as the 3 observation values; if the record has no entry
at that row index, the call fails fatally with the out-of-range error
(`none`), never a silent default. -/
theorem C9_observe_record_lookup (s : Solver) (data : List (List ℚ))
    (g : ℕ → ℚ) (t : ℚ) (hda : s.da_interval ≠ 0) :
    (npRow data (pyInt (t / s.da_interval) * 10) = none →
      s.observe data g t = none) ∧
    (∀ row, npRow data (pyInt (t / s.da_interval) * 10) = some row →
      s.refObs data t = some ((row.drop 1).dropLast) ∧
      ∀ mat pert stds, s.observe data g t = some (mat, pert, stds) →
        mat = ((List.range 3).map (fun i => ((row.drop 1).dropLast).getD i 0 +
          s.obsStd (((row.drop 1).dropLast).getD i 0) * g i)).map
            (fun v => List.replicate s.nsamples v)) := by
  constructor
  · intro hnone
    unfold Solver.observe
    rw [if_neg hda, hnone]
  · intro row hrow
    have href : s.refObs data t = some ((row.drop 1).dropLast) := by
      unfold Solver.refObs
      rw [if_neg hda, hrow]
      rfl
    refine ⟨href, ?_⟩
    intro mat pert stds h
    obtain ⟨ov, hov, -, -, hmat, -, -⟩ :=
      observe_eq_some s data g t mat pert stds h
    have hov2 : ov = (row.drop 1).dropLast := by
      rw [href] at hov
      exact ((Option.some.injEq _ _).mp hov).symm
    rw [hmat, hov2]

/-- Concrete evaluation of `observe` used by the witnesses: one member, the
record row `[0, 1, 2, 3, 0]`, all standard-normal draws equal to 1. -/
lemma observe_posSolver_eval :
    posSolver.observe [[0, 1, 2, 3, 0]] (fun _ => 1) 0 =
      some ([[6/5], [23/10], [17/5]], [[1/5], [3/10], [2/5]],
        [1/5, 3/10, 2/5]) := by
  norm_num [Solver.observe, npRow, pyInt, Solver.obsStd, posSolver,
    List.range_succ]

/-- Witness for C7 at the concrete configuration. -/
theorem C7_observe_one_draw_replicated_witness :
    ∃ w ov : List ℚ, posSolver.refObs [[0, 1, 2, 3, 0]] 0 = some ov ∧
      [[(6 : ℚ)/5], [23/10], [17/5]] =
        w.map (fun v => List.replicate posSolver.nsamples v) ∧
      [[(1 : ℚ)/5], [3/10], [2/5]] = List.zipWith
        (fun mrow v => mrow.map (fun a => a - v))
        [[(6 : ℚ)/5], [23/10], [17/5]] ov ∧
      [[(1 : ℚ)/5], [3/10], [2/5]] = (List.zipWith (fun a b => a - b) w ov).map
        (fun v => List.replicate posSolver.nsamples v) ∧
      (∀ j, j < posSolver.nsamples →
        colOf [[(6 : ℚ)/5], [23/10], [17/5]] j = w) ∧
      (∀ j, j < posSolver.nsamples →
        colOf [[(1 : ℚ)/5], [3/10], [2/5]] j =
          List.zipWith (fun a b => a - b) w ov) :=
  C7_observe_one_draw_replicated posSolver [[0, 1, 2, 3, 0]] (fun _ => 1) 0
    [[6/5], [23/10], [17/5]] [[1/5], [3/10], [2/5]] [1/5, 3/10, 2/5]
    observe_posSolver_eval

/-- Witness for C8 at the concrete configuration. -/
theorem C8_obs_error_diagonal_positive_witness :
    ∃ ov : List ℚ, posSolver.refObs [[0, 1, 2, 3, 0]] 0 = some ov ∧
      (get_obs_error [1/5, 3/10, 2/5]).length = 3 ∧
      (∀ row ∈ get_obs_error [1/5, 3/10, 2/5], row.length = 3) ∧
      (∀ i j, i < 3 → j < 3 → entryD (get_obs_error [1/5, 3/10, 2/5]) i j =
        if i = j then (posSolver.obs_rel_std * |ov.getD i 0| + 1/10) ^ 2
        else 0) ∧
      (∀ i, i < 3 → 0 < entryD (get_obs_error [1/5, 3/10, 2/5]) i i) :=
  C8_obs_error_diagonal_positive posSolver [[0, 1, 2, 3, 0]] (fun _ => 1) 0
    [[6/5], [23/10], [17/5]] [[1/5], [3/10], [2/5]] [1/5, 3/10, 2/5]
    (by norm_num [posSolver]) observe_posSolver_eval

/-- Witness for C9: an empty record makes the row lookup fail and the
`observe` call fail with it. -/
theorem C9_observe_record_lookup_witness :
    posSolver.observe [] (fun _ => 0) 0 = none :=
  (C9_observe_record_lookup posSolver [] (fun _ => 0) 0
    (by norm_num [posSolver])).1 (by norm_num [npRow, pyInt])

end Lorenz
